import Mathlib

/-!
Verification development for the projection synthesizer
(`src/synthesize_projections.py`).

The Python source is shallowly embedded over exact rationals `ℚ`
(idealizing IEEE doubles as exact arithmetic, except where non-finite
values matter, in which case an explicit `FloatVal` domain is used).

Modelling conventions, matched line by line against the source:
* `convert_to_prob` embeds the helper at lines 14-19.
* pandas `Series.ewm(alpha=a).mean()` uses pandas' default
  `adjust=True` weighting; it is embedded as `ewmAdjusted`, computed by
  the same online numerator/denominator recursion pandas uses:
  starting from `num = den = 0`, each step does
  `num := (1-a)*num + x`, `den := (1-a)*den + 1` and emits `num/den`.
* pandas `Series.median()` is embedded as `medianQ` (sort ascending,
  middle element for odd length, mean of the two middle elements for
  even length; pandas yields NaN on an empty series, a case no caller
  reaches, modelled as 0).
* `DataFrame.sort_values(by="Date")` is embedded as
  `List.insertionSort dateLE` (a sort of the value/date pairs by date).
* Abnormal float results are modelled by `Option ℚ`: `none` stands for
  the computation producing a non-number (NaN/infinity from a pandas
  elementwise division by a zero sum) or raising Python's
  `ZeroDivisionError` (scalar float division by `0.0`).  `some q` is a
  normal finite result.
* `round(x, 2)` is embedded as `round2` (round half to even, Python's
  rounding mode).
-/

/-- Historical-stats record.  Embeds the dictionary lookups at lines
53-56 of the source: `seasonValues` is
`historical_stats.get("Season Games", {}).get("Value", [])` (a missing
key yields `[]`), `seasonAvg` is `historical_stats.get("Season Avg", 0)`
(a missing key yields `0`), `h2hValues` and `h2hDates` are the
`"Value"` and `"Dates"` entries of `"H2H Games"` (missing keys yield
`[]`).  Dates are modelled as integers: only their ordering matters. -/
structure HistStats where
  seasonValues : List ℚ
  seasonAvg : ℚ
  h2hValues : List ℚ
  h2hDates : List ℤ
deriving DecidableEq

/-- Lines 14-19: convert American odds to implied probability. -/
def convert_to_prob (odds : ℚ) : ℚ :=
  if odds > 0 then
    100 / (odds + 100)
  else
    |odds| / (|odds| + 100)

/-- Online loop of pandas `ewm(alpha=a).mean()` with the default
`adjust=True`: carries the weighted numerator and the weight total and
emits their quotient at every position. -/
def ewmGo (a num den : ℚ) : List ℚ → List ℚ
  | [] => []
  | x :: rest =>
    ((1 - a) * num + x) / ((1 - a) * den + 1) ::
      ewmGo a ((1 - a) * num + x) ((1 - a) * den + 1) rest

/-- pandas `Series(xs).ewm(alpha=a).mean()` (default `adjust=True`),
as used at lines 64 and 72 of the source. -/
def ewmAdjusted (xs : List ℚ) (a : ℚ) : List ℚ :=
  ewmGo a 0 0 xs

/-- The pair sequence of accumulators underlying `ewmGo`, used to state
and prove the recurrence the smoothed sequence satisfies. -/
def ewmAccs (a num den : ℚ) : List ℚ → List (ℚ × ℚ)
  | [] => []
  | x :: rest =>
    ((1 - a) * num + x, (1 - a) * den + 1) ::
      ewmAccs a ((1 - a) * num + x) ((1 - a) * den + 1) rest

/-- Total weight `Σ i ≤ t, (1-a)^i` of the adjusted EWMA at position
`t`, in recursive form. -/
def ewmWeight (a : ℚ) : ℕ → ℚ
  | 0 => 1
  | t + 1 => (1 - a) * ewmWeight a t + 1

/-- Ordering of value/date pairs by date, the key used by
`sort_values(by="Date")` at line 61 of the source. -/
def dateLE (p q : ℚ × ℤ) : Prop := p.2 ≤ q.2

instance : DecidableRel dateLE := fun p q => inferInstanceAs (Decidable (p.2 ≤ q.2))

instance : IsTotal (ℚ × ℤ) dateLE := ⟨fun p q => le_total p.2 q.2⟩

instance : IsTrans (ℚ × ℤ) dateLE := ⟨fun _ _ _ h1 h2 => le_trans h1 h2⟩

/-- pandas `Series.median()`: sort ascending; odd length takes the
middle element, even length averages the two middle elements.  pandas
returns NaN for an empty series; no caller in the source reaches that
case, and it is modelled as 0. -/
def medianQ (xs : List ℚ) : ℚ :=
  if xs.length = 0 then 0
  else
    if xs.length % 2 = 1 then
      (List.insertionSort (· ≤ ·) xs).getD (xs.length / 2) 0
    else
      ((List.insertionSort (· ≤ ·) xs).getD (xs.length / 2 - 1) 0 +
        (List.insertionSort (· ≤ ·) xs).getD (xs.length / 2) 0) / 2

/-- Lines 59-67 of the source: the H2H trend.  When both values and
dates are present (Python truthiness: both lists non-empty) the pairs
are sorted by date, the adjusted EWMA is taken over the sorted values
and its last entry (`iloc[-1]`) is returned; with values but no dates
the arithmetic mean `np.mean` is returned; with no values, 0.
The `DataFrame` constructor requires the two lists to have equal
length (it raises `ValueError` otherwise), so the model is faithful on
inputs where non-empty `h2h_values`/`h2h_dates` satisfy
`h2h_values.length = h2h_dates.length`; the embedding pairs them with
`zip`, and every theorem that quantifies over records carries this
equal-length precondition. -/
def h2hAvgCalc (h2h_values : List ℚ) (h2h_dates : List ℤ) (h2h_alpha : ℚ) : ℚ :=
  if h2h_values ≠ [] ∧ h2h_dates ≠ [] then
    (ewmAdjusted ((List.insertionSort dateLE (h2h_values.zip h2h_dates)).map Prod.fst)
      h2h_alpha).getLastD 0
  else if h2h_values ≠ [] then
    h2h_values.sum / (h2h_values.length : ℚ)
  else 0

/-- Lines 70-74 of the source: the season trend.  Non-empty season
values: median of the adjusted-EWMA-smoothed series; empty: the
`"Season Avg"` fallback. -/
def seasonEwmaCalc (season_game_values : List ℚ) (season_avg : ℚ) (alpha_static : ℚ) : ℚ :=
  if season_game_values ≠ [] then
    medianQ (ewmAdjusted season_game_values alpha_static)
  else season_avg

/-- Lines 90-97 of the source: the accumulation loop over book lines,
returning `(weighted_sum, total_weight)`.  Each quote is
`(line, volume, odds)`. -/
def bookLineLoop (book_lines : List (ℚ × ℚ × ℚ)) : ℚ × ℚ :=
  book_lines.foldl
    (fun acc lvo =>
      (acc.1 + lvo.1 * (lvo.2.1 * convert_to_prob lvo.2.2),
       acc.2 + lvo.2.1 * convert_to_prob lvo.2.2))
    (0, 0)

/-- Line 100 of the source: `weighted_sum / total_weight` when
`total_weight > 0`, else 0. -/
def weightedLineCalc (book_lines : List (ℚ × ℚ × ℚ)) : ℚ :=
  if 0 < (bookLineLoop book_lines).2 then
    (bookLineLoop book_lines).1 / (bookLineLoop book_lines).2
  else 0

/-- Lines 108-116 of the source: confidence-based dynamic weighting.
The three divisions by `total_confidence` are unguarded in the source;
a zero total raises Python's `ZeroDivisionError`, modelled as `none`. -/
def confidenceWeights (num_book_lines num_season_games num_h2h_games : ℕ) :
    Option (ℚ × ℚ × ℚ) :=
  let book_confidence : ℚ := min 1 ((num_book_lines : ℚ) / 5)
  let season_confidence : ℚ := min 1 ((num_season_games : ℚ) / 10)
  let h2h_confidence : ℚ := min 1 ((num_h2h_games : ℚ) / 3)
  let total_confidence := book_confidence + season_confidence + h2h_confidence
  if total_confidence = 0 then none
  else
    some (book_confidence / total_confidence, season_confidence / total_confidence,
      h2h_confidence / total_confidence)

/-- Round half to even (Python's rounding mode for `round`). -/
def roundHalfEven (q : ℚ) : ℤ :=
  if q - Int.floor q < 1 / 2 then Int.floor q
  else if 1 / 2 < q - Int.floor q then Int.floor q + 1
  else if Int.floor q % 2 = 0 then Int.floor q else Int.floor q + 1

/-- Python `round(x, 2)` on an exact rational. -/
def round2 (q : ℚ) : ℚ :=
  (roundHalfEven (q * 100) : ℚ) / 100

/-- Lines 37-125 of the source: the projection synthesizer.
`none` models an abnormal result: in the no-book-lines branch the
pandas normalization `historical_series / historical_series.sum()`
divides by zero when the two trends sum to 0, producing NaN/infinite
entries and hence a NaN or infinite "projection" (pandas division does
not raise); in the book-lines branch a zero `total_confidence` would
raise `ZeroDivisionError`.  Every normal path returns
`some (round2 projection)`. -/
def synthesize_projection (book_lines : List (ℚ × ℚ × ℚ)) (historical_stats : HistStats)
    (alpha_static : ℚ) (h2h_alpha : ℚ) : Option ℚ :=
  let season_ewma :=
    seasonEwmaCalc historical_stats.seasonValues historical_stats.seasonAvg alpha_static
  let h2h_avg := h2hAvgCalc historical_stats.h2hValues historical_stats.h2hDates h2h_alpha
  if book_lines = [] then
    if season_ewma + h2h_avg = 0 then none
    else
      some (round2 (season_ewma * (season_ewma / (season_ewma + h2h_avg)) +
        h2h_avg * (h2h_avg / (season_ewma + h2h_avg))))
  else
    let weighted_line := weightedLineCalc book_lines
    match confidenceWeights book_lines.length historical_stats.seasonValues.length
        historical_stats.h2hValues.length with
    | none => none
    | some (book_weight, season_weight, h2h_weight) =>
      some (round2 (weighted_line * book_weight + season_ewma * season_weight +
        h2h_avg * h2h_weight))

/-- IEEE-double domain distinguishing non-finite values, used to settle
what `convert_to_prob` does on NaN and infinities (the function body
performs no finiteness validation). -/
inductive FloatVal where
  | fin (q : ℚ)
  | nan
  | inf
  | ninf
deriving DecidableEq

/-- IEEE `x > 0` (NaN compares false). -/
def FloatVal.isPos : FloatVal → Bool
  | .fin q => decide (0 < q)
  | .nan => false
  | .inf => true
  | .ninf => false

/-- IEEE `abs`. -/
def FloatVal.fabs : FloatVal → FloatVal
  | .fin q => .fin |q|
  | .nan => .nan
  | .inf => .inf
  | .ninf => .inf

/-- IEEE addition of a finite constant. -/
def FloatVal.addC (c : ℚ) : FloatVal → FloatVal
  | .fin q => .fin (q + c)
  | .nan => .nan
  | .inf => .inf
  | .ninf => .ninf

/-- IEEE division (zero idealized as +0). -/
def FloatVal.fdiv : FloatVal → FloatVal → FloatVal
  | .nan, _ => .nan
  | _, .nan => .nan
  | .inf, .inf => .nan
  | .inf, .ninf => .nan
  | .ninf, .inf => .nan
  | .ninf, .ninf => .nan
  | .fin _, .inf => .fin 0
  | .fin _, .ninf => .fin 0
  | .inf, .fin q => if q < 0 then .ninf else .inf
  | .ninf, .fin q => if q < 0 then .inf else .ninf
  | .fin p, .fin q =>
    if q = 0 then (if p = 0 then .nan else if 0 < p then .inf else .ninf)
    else .fin (p / q)

/-- Lines 14-19 of the source interpreted over the IEEE-double domain
`FloatVal`: the exact same branch and formulas as `convert_to_prob`,
with float semantics for non-finite inputs.  The body contains no
validation and no raise statement. -/
def convertF (odds : FloatVal) : FloatVal :=
  if odds.isPos then
    FloatVal.fdiv (.fin 100) (odds.addC 100)
  else
    FloatVal.fdiv odds.fabs (odds.fabs.addC 100)

/-! ### Helper lemmas -/

lemma ewmGo_length (a : ℚ) : ∀ (xs : List ℚ) (num den : ℚ),
    (ewmGo a num den xs).length = xs.length := by
  intro xs
  induction xs with
  | nil => intro num den; rfl
  | cons x rest ih => intro num den; simp [ewmGo, ih]

lemma ewmAccs_length (a : ℚ) : ∀ (xs : List ℚ) (num den : ℚ),
    (ewmAccs a num den xs).length = xs.length := by
  intro xs
  induction xs with
  | nil => intro num den; rfl
  | cons x rest ih => intro num den; simp [ewmAccs, ih]

lemma ewmGo_eq_map (a : ℚ) : ∀ (xs : List ℚ) (num den : ℚ),
    ewmGo a num den xs = (ewmAccs a num den xs).map (fun p => p.1 / p.2) := by
  intro xs
  induction xs with
  | nil => intro num den; rfl
  | cons x rest ih => intro num den; simp [ewmGo, ewmAccs, ih]

lemma getD_map_div : ∀ (l : List (ℚ × ℚ)) (t : ℕ), t < l.length →
    (l.map (fun p => p.1 / p.2)).getD t 0 = (l.getD t (0, 1)).1 / (l.getD t (0, 1)).2 := by
  intro l
  induction l with
  | nil => intro t h; simp at h
  | cons p rest ih =>
    intro t h
    cases t with
    | zero => simp
    | succ s =>
      simp only [List.map_cons, List.getD_cons_succ]
      exact ih s (by simpa using Nat.lt_of_succ_lt_succ h)

lemma ewmAccs_getD_succ (a : ℚ) : ∀ (xs : List ℚ) (num den : ℚ) (t : ℕ),
    t + 1 < xs.length →
    (ewmAccs a num den xs).getD (t + 1) (0, 1) =
      ((1 - a) * ((ewmAccs a num den xs).getD t (0, 1)).1 + xs.getD (t + 1) 0,
       (1 - a) * ((ewmAccs a num den xs).getD t (0, 1)).2 + 1) := by
  intro xs
  induction xs with
  | nil => intro num den t h; simp at h
  | cons x rest ih =>
    intro num den t h
    cases t with
    | zero =>
      cases rest with
      | nil => simp at h
      | cons y rest2 => simp [ewmAccs]
    | succ s =>
      simp only [ewmAccs, List.getD_cons_succ]
      exact ih _ _ s (by simpa using Nat.lt_of_succ_lt_succ h)

lemma ewmAccs_den (a : ℚ) (xs : List ℚ) : ∀ (t : ℕ) (num : ℚ), t < xs.length →
    ((ewmAccs a num 0 xs).getD t (0, 1)).2 = ewmWeight a t := by
  intro t
  induction t with
  | zero =>
    intro num h
    cases xs with
    | nil => simp at h
    | cons x rest => simp [ewmAccs, ewmWeight]
  | succ s ih =>
    intro num h
    rw [ewmAccs_getD_succ a xs num 0 s h]
    dsimp only
    rw [ih num (by omega), ewmWeight]

lemma ewmWeight_ge_one (a : ℚ) (ha : a ≤ 1) : ∀ t : ℕ, 1 ≤ ewmWeight a t := by
  intro t
  induction t with
  | zero => exact le_refl 1
  | succ s ih =>
    have h0 : 0 ≤ 1 - a := by linarith
    have : 0 ≤ (1 - a) * ewmWeight a s := mul_nonneg h0 (by linarith)
    rw [ewmWeight]
    linarith

lemma ewmAdjusted_head (xs : List ℚ) (a : ℚ) :
    (ewmAdjusted xs a).getD 0 0 = xs.getD 0 0 := by
  cases xs with
  | nil => rfl
  | cons x rest => simp [ewmAdjusted, ewmGo]

lemma ewmAdjusted_length (xs : List ℚ) (a : ℚ) :
    (ewmAdjusted xs a).length = xs.length :=
  ewmGo_length a xs 0 0

lemma bookLineLoop_foldl : ∀ (l : List (ℚ × ℚ × ℚ)) (acc : ℚ × ℚ),
    l.foldl
      (fun acc lvo =>
        (acc.1 + lvo.1 * (lvo.2.1 * convert_to_prob lvo.2.2),
         acc.2 + lvo.2.1 * convert_to_prob lvo.2.2)) acc =
      (acc.1 + (l.map (fun q => q.1 * (q.2.1 * convert_to_prob q.2.2))).sum,
       acc.2 + (l.map (fun q => q.2.1 * convert_to_prob q.2.2)).sum) := by
  intro l
  induction l with
  | nil => intro acc; simp
  | cons q rest ih =>
    intro acc
    simp only [List.foldl_cons, List.map_cons, List.sum_cons, ih, Prod.mk.injEq]
    constructor <;> ring

lemma bookLineLoop_eq (l : List (ℚ × ℚ × ℚ)) :
    bookLineLoop l =
      ((l.map (fun q => q.1 * (q.2.1 * convert_to_prob q.2.2))).sum,
       (l.map (fun q => q.2.1 * convert_to_prob q.2.2)).sum) := by
  rw [bookLineLoop, bookLineLoop_foldl]
  simp

/-! ### Claims -/

/-- Claim C2, counterexample.  The sequence the program computes via
pandas `ewm(alpha=0.70).mean()` (default `adjust=True`) does not
satisfy the plain recurrence `y[t] = alpha*x[t] + (1-alpha)*y[t-1]`:
on the input `[0, 1]` with `alpha = 0.70` the program's smoothed value
at position 1 is `10/13`, while the recurrence demands `7/10`. -/
theorem ewma_recurrence_counterexample :
    (ewmAdjusted [0, 1] (7/10)).getD 1 0 = 10/13 ∧
    (7/10 : ℚ) * (([0, 1] : List ℚ).getD 1 0) +
      (1 - 7/10) * ((ewmAdjusted [0, 1] (7/10)).getD 0 0) = 7/10 ∧
    (10/13 : ℚ) ≠ 7/10 :=
  ⟨by norm_num [ewmAdjusted, ewmGo], by norm_num [ewmAdjusted, ewmGo], by norm_num⟩

/-- Claim C2, amended.  The smoothed sequence the program computes from
an ordered sequence of values and an alpha in (0,1] satisfies
`y[0] = x[0]` and, for `t ≥ 1`, the *adjusted* (weight-normalized)
recurrence `y[t] = (x[t] + (1-alpha)*W[t-1]*y[t-1]) / (1 + (1-alpha)*W[t-1])`,
where `W` is the accumulated weight `W[0] = 1`,
`W[t] = (1-alpha)*W[t-1] + 1` (so `W[t] = Σ i ≤ t, (1-alpha)^i`);
this is pandas' default `adjust=True` weighting, not the plain
exponential recurrence. -/
theorem ewma_adjusted_recurrence (xs : List ℚ) (a : ℚ) (ha0 : 0 < a) (ha1 : a ≤ 1) :
    (ewmAdjusted xs a).getD 0 0 = xs.getD 0 0 ∧
    ∀ t : ℕ, t + 1 < xs.length →
      (ewmAdjusted xs a).getD (t + 1) 0 =
        (xs.getD (t + 1) 0 + (1 - a) * ewmWeight a t * ((ewmAdjusted xs a).getD t 0)) /
          (1 + (1 - a) * ewmWeight a t) := by
  refine ⟨ewmAdjusted_head xs a, ?_⟩
  intro t ht
  have hlen_t : t < xs.length := by omega
  have hlen_acc : (ewmAccs a 0 0 xs).length = xs.length := ewmAccs_length a xs 0 0
  have hy_t : (ewmAdjusted xs a).getD t 0
      = ((ewmAccs a 0 0 xs).getD t (0, 1)).1 / ((ewmAccs a 0 0 xs).getD t (0, 1)).2 := by
    rw [ewmAdjusted, ewmGo_eq_map a xs 0 0]
    exact getD_map_div _ t (by rw [hlen_acc]; exact hlen_t)
  have hy_t1 : (ewmAdjusted xs a).getD (t + 1) 0
      = ((ewmAccs a 0 0 xs).getD (t + 1) (0, 1)).1 /
          ((ewmAccs a 0 0 xs).getD (t + 1) (0, 1)).2 := by
    rw [ewmAdjusted, ewmGo_eq_map a xs 0 0]
    exact getD_map_div _ (t + 1) (by rw [hlen_acc]; exact ht)
  have hstep := ewmAccs_getD_succ a xs 0 0 t ht
  have hden_t : ((ewmAccs a 0 0 xs).getD t (0, 1)).2 = ewmWeight a t :=
    ewmAccs_den a xs t 0 hlen_t
  have hW1 : 1 ≤ ewmWeight a t := ewmWeight_ge_one a ha1 t
  have hWne : ewmWeight a t ≠ 0 := by linarith
  have h1a : (0 : ℚ) ≤ 1 - a := by linarith
  have hDpos : (0 : ℚ) < 1 + (1 - a) * ewmWeight a t := by nlinarith
  have hDne : 1 + (1 - a) * ewmWeight a t ≠ 0 := ne_of_gt hDpos
  have hDne2 : (1 - a) * ewmWeight a t + 1 ≠ 0 := by linarith
  rw [hy_t1, hstep]
  dsimp only
  rw [hy_t, hden_t]
  field_simp
  ring

/-- Witness for `ewma_adjusted_recurrence` at `xs = [0, 1]`,
`alpha = 7/10`, `t = 0`. -/
theorem ewma_adjusted_recurrence_witness :
    (ewmAdjusted [0, 1] (7/10)).getD 0 0 = ([0, 1] : List ℚ).getD 0 0 ∧
    (ewmAdjusted [0, 1] (7/10)).getD 1 0 =
      (([0, 1] : List ℚ).getD 1 0 +
        (1 - 7/10) * ewmWeight (7/10) 0 * ((ewmAdjusted [0, 1] (7/10)).getD 0 0)) /
        (1 + (1 - 7/10) * ewmWeight (7/10) 0) := by
  have h := ewma_adjusted_recurrence [0, 1] (7/10) (by norm_num) (by norm_num)
  exact ⟨h.1, h.2 0 (by norm_num)⟩

/-- Claim C1 (code bug): the no-quotes branch has no zero-sum guard.
On the reachable input of an empty quotes list and an empty historical
record, both trends are 0, the pandas normalization
`historical_series / historical_series.sum()` divides by a zero sum and
the function returns NaN (modelled `none`) instead of the `0.0` the
specification demands. -/
theorem branchA_zero_sum_not_guarded :
    synthesize_projection [] ⟨[], 0, [], []⟩ (7/10) (17/20) = none := by
  norm_num [synthesize_projection, seasonEwmaCalc, h2hAvgCalc]

/-- Claim C3, counterexample: the source computes
`convert_to_prob(0) = |0| / (|0| + 100) = 0`, not the `0.5` the claim
asserts. -/
theorem convert_to_prob_zero_counterexample :
    convert_to_prob 0 = 0 ∧ (0 : ℚ) ≠ 1/2 :=
  ⟨by norm_num [convert_to_prob], by norm_num⟩

/-- Claim C3, amended: the odds-to-probability conversion returns
`100/(odds+100)` for positive odds and `|odds|/(|odds|+100)` otherwise;
in particular `convert(100) = 1/2`, `convert(-100) = 1/2`,
`convert(200) = 1/3`, `convert(-200) = 2/3`, and `convert(0) = 0`
(the else-branch formula at zero, not `1/2`). -/
theorem convert_to_prob_spec :
    (∀ odds : ℚ, convert_to_prob odds =
      if 0 < odds then 100 / (odds + 100) else |odds| / (|odds| + 100)) ∧
    convert_to_prob 100 = 1/2 ∧ convert_to_prob (-100) = 1/2 ∧
    convert_to_prob 200 = 1/3 ∧ convert_to_prob (-200) = 2/3 ∧
    convert_to_prob 0 = 0 := by
  refine ⟨fun odds => rfl, ?_, ?_, ?_, ?_, ?_⟩ <;> norm_num [convert_to_prob]

/-- Claim C4, counterexample: `convert_to_prob` contains no finiteness
check and no raise statement; on non-finite inputs it returns a value
(NaN for NaN, `0.0` for `+inf` since `100/inf = 0`, NaN for `-inf`
since `inf/inf = NaN`) instead of failing with an `InvalidOddsError`. -/
theorem convertF_no_error_counterexample :
    convertF .nan = .nan ∧ convertF .inf = .fin 0 ∧ convertF .ninf = .nan :=
  ⟨rfl, rfl, rfl⟩

/-- Claim C4, amended: the conversion never raises.  Every finite odds
value maps to the finite rational given by the sign-based formula, and
non-finite inputs flow through IEEE arithmetic: NaN yields NaN,
`+inf` yields 0, `-inf` yields NaN. -/
theorem convertF_total_spec :
    (∀ q : ℚ, convertF (.fin q) = .fin (convert_to_prob q)) ∧
    convertF .nan = .nan ∧ convertF .inf = .fin 0 ∧ convertF .ninf = .nan := by
  refine ⟨?_, rfl, rfl, rfl⟩
  intro q
  by_cases h : 0 < q
  · have hne : q + 100 ≠ 0 := by linarith
    simp [convertF, FloatVal.isPos, FloatVal.addC, FloatVal.fdiv, convert_to_prob, h, hne]
  · have habs : |q| + 100 ≠ 0 := by positivity
    simp [convertF, FloatVal.isPos, FloatVal.addC, FloatVal.fabs, FloatVal.fdiv,
      convert_to_prob, h, habs]

/-- Claim C5, counterexample: a quotes list containing a negative
volume is not rejected — no validation exists in the source.  The
quote `(50, -1, 100)` contributes weight `-0.5` and the function
silently returns a computed projection (`-3.33`). -/
theorem negative_volume_not_rejected :
    synthesize_projection [(50, -1, 100), (10, 4, 100)] ⟨[], 0, [], []⟩ (7/10) (17/20) =
      some (-333/100) := by
  norm_num [synthesize_projection, seasonEwmaCalc, h2hAvgCalc, weightedLineCalc, bookLineLoop,
    convert_to_prob, confidenceWeights, round2, roundHalfEven, List.cons_ne_nil]

/-- Claim C5, amended: for every quotes list containing a quote with
negative volume, the market-line aggregation does not reject the
input: the negative weight enters the weighted sums like any other,
and the guarded weighted-line formula is evaluated as usual. -/
theorem negative_volume_flows_through (quotes : List (ℚ × ℚ × ℚ))
    (hneg : ∃ q ∈ quotes, q.2.1 < 0) :
    weightedLineCalc quotes =
      if 0 < (quotes.map (fun q => q.2.1 * convert_to_prob q.2.2)).sum then
        (quotes.map (fun q => q.1 * (q.2.1 * convert_to_prob q.2.2))).sum /
          (quotes.map (fun q => q.2.1 * convert_to_prob q.2.2)).sum
      else 0 := by
  simp only [weightedLineCalc, bookLineLoop_eq]

/-- Witness for `negative_volume_flows_through` at a concrete quotes
list with a negative volume. -/
theorem negative_volume_flows_through_witness :
    weightedLineCalc [(50, -1, 100), (10, 4, 100)] =
      if 0 < (([(50, -1, 100), (10, 4, 100)] : List (ℚ × ℚ × ℚ)).map
          (fun q => q.2.1 * convert_to_prob q.2.2)).sum then
        (([(50, -1, 100), (10, 4, 100)] : List (ℚ × ℚ × ℚ)).map
          (fun q => q.1 * (q.2.1 * convert_to_prob q.2.2))).sum /
          (([(50, -1, 100), (10, 4, 100)] : List (ℚ × ℚ × ℚ)).map
            (fun q => q.2.1 * convert_to_prob q.2.2)).sum
      else 0 :=
  negative_volume_flows_through _ ⟨(50, -1, 100), by simp, by norm_num⟩

/-- Claim C6, counterexample: when all three evidence counts are zero
the source performs an unguarded division by the zero total (Python
`ZeroDivisionError`, modelled `none`); it does not return the equal
weights `(1/3, 1/3, 1/3)`. -/
theorem confidence_weights_zero_total_counterexample :
    confidenceWeights 0 0 0 = none ∧
    (none : Option (ℚ × ℚ × ℚ)) ≠ some (1/3, 1/3, 1/3) :=
  ⟨by norm_num [confidenceWeights], by simp⟩

/-- Claim C6, amended: the confidence-weight computation has no
zero-total fallback — a zero total is a division error (`none`).
When the total is nonzero each weight equals its confidence divided by
the total and the three weights sum to 1.  (In the program the
computation is only reached with at least one quote, so the total is
at least 1/5; see `branchB_confidence_positive`.) -/
theorem confidence_weights_behavior (b s h : ℕ) :
    (min 1 ((b : ℚ) / 5) + min 1 ((s : ℚ) / 10) + min 1 ((h : ℚ) / 3) = 0 →
      confidenceWeights b s h = none) ∧
    (min 1 ((b : ℚ) / 5) + min 1 ((s : ℚ) / 10) + min 1 ((h : ℚ) / 3) ≠ 0 →
      confidenceWeights b s h =
        some (min 1 ((b : ℚ) / 5) /
            (min 1 ((b : ℚ) / 5) + min 1 ((s : ℚ) / 10) + min 1 ((h : ℚ) / 3)),
          min 1 ((s : ℚ) / 10) /
            (min 1 ((b : ℚ) / 5) + min 1 ((s : ℚ) / 10) + min 1 ((h : ℚ) / 3)),
          min 1 ((h : ℚ) / 3) /
            (min 1 ((b : ℚ) / 5) + min 1 ((s : ℚ) / 10) + min 1 ((h : ℚ) / 3))) ∧
      min 1 ((b : ℚ) / 5) /
          (min 1 ((b : ℚ) / 5) + min 1 ((s : ℚ) / 10) + min 1 ((h : ℚ) / 3)) +
        min 1 ((s : ℚ) / 10) /
          (min 1 ((b : ℚ) / 5) + min 1 ((s : ℚ) / 10) + min 1 ((h : ℚ) / 3)) +
        min 1 ((h : ℚ) / 3) /
          (min 1 ((b : ℚ) / 5) + min 1 ((s : ℚ) / 10) + min 1 ((h : ℚ) / 3)) = 1) := by
  constructor
  · intro h0
    simp only [confidenceWeights]
    rw [if_pos h0]
  · intro h0
    refine ⟨?_, ?_⟩
    · simp only [confidenceWeights]
      rw [if_neg h0]
    · rw [div_add_div_same, div_add_div_same, div_self h0]

/-- Witness for `confidence_weights_behavior` at the saturating counts
`(5, 10, 3)`: all three confidences are 1 and the weights are exactly
`(1/3, 1/3, 1/3)`. -/
theorem confidence_weights_behavior_witness :
    confidenceWeights 5 10 3 = some (1/3, 1/3, 1/3) := by
  have h := (confidence_weights_behavior 5 10 3).2 (by norm_num)
  rw [h.1]
  norm_num

/-- Claim C7 (confirmed): the aggregated market line equals
`Σ(line * (volume * prob)) / Σ(volume * prob)` when the total weight is
positive and 0 otherwise, and the single quote `(50, 1, 100)` yields
exactly 50. -/
theorem weighted_line_spec :
    (∀ quotes : List (ℚ × ℚ × ℚ),
      weightedLineCalc quotes =
        if 0 < (quotes.map (fun q => q.2.1 * convert_to_prob q.2.2)).sum then
          (quotes.map (fun q => q.1 * (q.2.1 * convert_to_prob q.2.2))).sum /
            (quotes.map (fun q => q.2.1 * convert_to_prob q.2.2)).sum
        else 0) ∧
    weightedLineCalc [(50, 1, 100)] = 50 := by
  constructor
  · intro quotes
    simp only [weightedLineCalc, bookLineLoop_eq]
  · norm_num [weightedLineCalc, bookLineLoop, convert_to_prob]

/-- Claim C8 (confirmed): the H2H trend pairs values with dates, sorts
the pairs ascending by date (the sorted list is a permutation of the
pairs that is sorted under `dateLE`), smooths the sorted values and
returns the last smoothed element; with values but no dates it returns
the arithmetic mean; with no H2H values it returns 0.  The pairing
hypothesis reflects the `DataFrame` constructor's equal-length
requirement. -/
theorem h2h_trend_spec (values : List ℚ) (dates : List ℤ) (al : ℚ) :
    (values ≠ [] → dates ≠ [] → values.length = dates.length →
      ∃ sorted : List (ℚ × ℤ), sorted.Perm (values.zip dates) ∧
        List.Sorted dateLE sorted ∧
        h2hAvgCalc values dates al = (ewmAdjusted (sorted.map Prod.fst) al).getLastD 0) ∧
    (values ≠ [] → dates = [] →
      h2hAvgCalc values dates al = values.sum / (values.length : ℚ)) ∧
    (values = [] → h2hAvgCalc values dates al = 0) := by
  refine ⟨?_, ?_, ?_⟩
  · intro hv hd _
    refine ⟨List.insertionSort dateLE (values.zip dates),
      List.perm_insertionSort dateLE _, List.sorted_insertionSort dateLE _, ?_⟩
    simp only [h2hAvgCalc]
    rw [if_pos ⟨hv, hd⟩]
  · intro hv hd
    subst hd
    simp only [h2hAvgCalc]
    rw [if_neg (by simp), if_pos hv]
  · intro hv
    subst hv
    simp [h2hAvgCalc]

/-- Witness for `h2h_trend_spec` on values `[1, 2]` with out-of-order
dates `[5, 3]`. -/
theorem h2h_trend_spec_witness :
    ∃ sorted : List (ℚ × ℤ), sorted.Perm (([1, 2] : List ℚ).zip ([5, 3] : List ℤ)) ∧
      List.Sorted dateLE sorted ∧
      h2hAvgCalc [1, 2] [5, 3] (17/20) =
        (ewmAdjusted (sorted.map Prod.fst) (17/20)).getLastD 0 :=
  (h2h_trend_spec [1, 2] [5, 3] (17/20)).1 (by simp) (by simp) (by simp)

/-- Claim C9 (confirmed): the season trend equals the `"Season Avg"`
fallback when the season values are empty, and otherwise the median of
the full smoothed sequence (characterized by a sorted permutation of
the smoothed list); it is not the last smoothed element, as the
concrete input `[10, 0, 0]` shows (median `30/13`, last element
`90/139`). -/
theorem season_trend_spec (values : List ℚ) (avg al : ℚ) :
    (values = [] → seasonEwmaCalc values avg al = avg) ∧
    (values ≠ [] →
      ∃ s : List ℚ, s.Perm (ewmAdjusted values al) ∧ List.Sorted (· ≤ ·) s ∧
        seasonEwmaCalc values avg al =
          if (ewmAdjusted values al).length % 2 = 1 then
            s.getD ((ewmAdjusted values al).length / 2) 0
          else
            (s.getD ((ewmAdjusted values al).length / 2 - 1) 0 +
              s.getD ((ewmAdjusted values al).length / 2) 0) / 2) ∧
    (seasonEwmaCalc [10, 0, 0] 0 (7/10) = 30/13 ∧
      (ewmAdjusted [10, 0, 0] (7/10)).getLastD 0 = 90/139 ∧
      (30/13 : ℚ) ≠ 90/139) := by
  refine ⟨?_, ?_, ?_, ?_, ?_⟩
  · intro hv
    subst hv
    simp [seasonEwmaCalc]
  · intro hv
    refine ⟨List.insertionSort (· ≤ ·) (ewmAdjusted values al),
      List.perm_insertionSort _ _, List.sorted_insertionSort _ _, ?_⟩
    have hlen : (ewmAdjusted values al).length ≠ 0 := by
      rw [ewmAdjusted_length]
      exact fun hz => hv (List.length_eq_zero.mp hz)
    simp only [seasonEwmaCalc]
    rw [if_pos hv]
    simp only [medianQ]
    rw [if_neg hlen]
  · norm_num [seasonEwmaCalc, medianQ, ewmAdjusted, ewmGo, List.insertionSort,
      List.orderedInsert, List.cons_ne_nil]
  · norm_num [ewmAdjusted, ewmGo, List.getLastD]
  · norm_num

/-- Witness for `season_trend_spec`: the empty-values fallback at
`avg = 5` and the median branch at the singleton `[1]`. -/
theorem season_trend_spec_witness :
    seasonEwmaCalc [] 5 (7/10) = 5 ∧
    (∃ s : List ℚ, s.Perm (ewmAdjusted [(1 : ℚ)] (1/2)) ∧ List.Sorted (· ≤ ·) s ∧
      seasonEwmaCalc [(1 : ℚ)] 0 (1/2) =
        if (ewmAdjusted [(1 : ℚ)] (1/2)).length % 2 = 1 then
          s.getD ((ewmAdjusted [(1 : ℚ)] (1/2)).length / 2) 0
        else
          (s.getD ((ewmAdjusted [(1 : ℚ)] (1/2)).length / 2 - 1) 0 +
            s.getD ((ewmAdjusted [(1 : ℚ)] (1/2)).length / 2) 0) / 2) :=
  ⟨(season_trend_spec [] 5 (7/10)).1 rfl,
   (season_trend_spec [(1 : ℚ)] 0 (1/2)).2.1 (by simp)⟩

/-- Claim C10 (confirmed): with a non-empty quotes list the total
confidence is at least `1/5` (book confidence `min(1, n/5)` with
`n ≥ 1`, the other two confidences nonnegative), so the normalizing
divisions are never by zero on this branch and the synthesizer returns
a defined value.  The `hlen` hypothesis restricts the defined-value
conjunct to inputs on which the program reaches the confidence
weighting at all: when `h2hValues` and `h2hDates` are both non-empty
with unequal lengths, the `pd.DataFrame` constructor at line 60 raises
`ValueError` before any weighting runs (the embedding `h2hAvgCalc`
truncates via `zip` and is faithful only under this precondition). -/
theorem branchB_confidence_positive (quotes : List (ℚ × ℚ × ℚ)) (hs : HistStats)
    (alpha_static h2h_alpha : ℚ) (hq : quotes ≠ [])
    (hlen : hs.h2hValues ≠ [] → hs.h2hDates ≠ [] →
      hs.h2hValues.length = hs.h2hDates.length) :
    (1/5 : ℚ) ≤ min 1 ((quotes.length : ℚ) / 5) +
        min 1 ((hs.seasonValues.length : ℚ) / 10) +
        min 1 ((hs.h2hValues.length : ℚ) / 3) ∧
    (synthesize_projection quotes hs alpha_static h2h_alpha).isSome = true := by
  have h1 : 1 ≤ quotes.length := List.length_pos.mpr hq
  have h1q : (1 : ℚ) ≤ (quotes.length : ℚ) := by exact_mod_cast h1
  have hb : (1/5 : ℚ) ≤ min 1 ((quotes.length : ℚ) / 5) :=
    le_min (by norm_num) (by linarith)
  have hsn : (0 : ℚ) ≤ min 1 ((hs.seasonValues.length : ℚ) / 10) :=
    le_min (by norm_num) (by positivity)
  have hhn : (0 : ℚ) ≤ min 1 ((hs.h2hValues.length : ℚ) / 3) :=
    le_min (by norm_num) (by positivity)
  refine ⟨by linarith, ?_⟩
  have htot : min 1 ((quotes.length : ℚ) / 5) + min 1 ((hs.seasonValues.length : ℚ) / 10) +
      min 1 ((hs.h2hValues.length : ℚ) / 3) ≠ 0 :=
    ne_of_gt (by linarith)
  have hex : ∃ w, confidenceWeights quotes.length hs.seasonValues.length
      hs.h2hValues.length = some w := by
    simp only [confidenceWeights]
    rw [if_neg htot]
    exact ⟨_, rfl⟩
  obtain ⟨w, hw⟩ := hex
  obtain ⟨bw, sw, hw2⟩ := w
  simp only [synthesize_projection]
  rw [if_neg hq, hw]
  rfl

/-- Witness for `branchB_confidence_positive` at a single quote and an
empty historical record. -/
theorem branchB_confidence_positive_witness :
    (1/5 : ℚ) ≤ min 1 ((([(50, 1, 100)] : List (ℚ × ℚ × ℚ)).length : ℚ) / 5) +
        min 1 (((HistStats.mk [] 0 [] []).seasonValues.length : ℚ) / 10) +
        min 1 (((HistStats.mk [] 0 [] []).h2hValues.length : ℚ) / 3) ∧
    (synthesize_projection [(50, 1, 100)] (HistStats.mk [] 0 [] []) (7/10)
      (17/20)).isSome = true :=
  branchB_confidence_positive [(50, 1, 100)] (HistStats.mk [] 0 [] []) (7/10) (17/20)
    (by simp) (by simp)
